import Mathlib

/-!
Verification of the ml-orchestrator flow execution core.

The Python sources are shallowly embedded as pure Lean functions:

* `config/settings.py`   → `StepStatus`, `FlowStep`
* `core/models.py`       → `StepResult`, `ExecutionContext`
* `utils/http_client.py` → `HttpResponse`
* `core/flow_router.py`  → `should_skip_step`
* `core/step_executor.py`→ `prepare_payload`, `prepare_headers`,
                           `execute_step_phases`, `execute_step`
* `core/flow_executor.py`→ `group_steps_by_parallelism`, `executeGroupsLoop`,
                           `execute_flow`

External effects are passed in explicitly: the process environment is a
function `String → Option String`, the HTTP transport is an oracle that either
returns an `HttpResponse` or raises a `Fault` (a Python exception), and the
nondeterministic completion order of a parallel group (`as_completed`) is a
schedule function on groups.  Wall-clock fields (`duration`, `started_at`,
`completed_at`) are omitted from the records; no verified property mentions
them.
-/

namespace MLOrchestrator

/-- Heterogeneous request-parameter values (the `Any` side of Python's
`Dict[str, Any]` as this code uses it: strings, booleans, integers, null).
`vnull` stands both for the `dict.get` default of a missing key and for an
explicitly stored `None`. -/
inductive Value where
  | vnull
  | vstr (s : String)
  | vbool (b : Bool)
  | vint (n : Int)
deriving DecidableEq, Repr

/-- Python truthiness of a value (`if v:`). -/
def Value.truthy : Value → Bool
  | .vnull => false
  | .vstr s => s != ""
  | .vbool b => b
  | .vint n => n != 0

/-- Python `str()` rendering as used inside an f-string. -/
def Value.pyStr : Value → String
  | .vnull => "None"
  | .vstr s => s
  | .vbool b => if b then "True" else "False"
  | .vint n => toString n

/-- A request-parameter mapping (`Dict[str, Any]`); keys are unique, so an
association list with first-occurrence lookup is an exact model. -/
abbrev RequestData := List (String × Value)

/-- Python `d.get(k)`: `None` for a missing key, the stored value (possibly
`None`) otherwise; both collapse to `Value.vnull`. -/
def dget (d : RequestData) (k : String) : Value :=
  match d.find? (fun kv => kv.1 == k) with
  | some kv => kv.2
  | none => .vnull

/-- Python `k in d` (key membership, regardless of the stored value). -/
def dmem (d : RequestData) (k : String) : Bool :=
  d.any (fun kv => kv.1 == k)

/-- Test that `pat` occurs at the head of the character list. -/
def charsStartWith : List Char → List Char → Bool
  | [], _ => true
  | _ :: _, [] => false
  | p :: ps, c :: cs => p == c && charsStartWith ps cs

/-- Helper for `pyIn`: `p` occurs somewhere inside the character list. -/
def charsContain (p : List Char) : List Char → Bool
  | [] => charsStartWith p []
  | l@(_ :: rest) => charsStartWith p l || charsContain p rest

/-- Python substring test `pat in s` on strings. -/
def pyIn (pat s : String) : Bool :=
  charsContain pat.data s.data

/-- Python truthiness of an optional string (`if s:` for `s : Optional[str]`):
falsy when `None` or empty. -/
def strOptTruthy : Option String → Bool
  | none => false
  | some s => s != ""

/-- Rendering of an `Optional[str]` inside an f-string. -/
def pyShowOptStr : Option String → String
  | none => "None"
  | some s => s

/-- Python `x or default` for an optional string (`or` falls through falsy
values, i.e. `None` and `""`). -/
def pyOrStr : Option String → String → String
  | none, d => d
  | some s, d => if s == "" then d else s

/-- Mirror of `StepStatus` from `config/settings.py`. -/
inductive StepStatus where
  | success
  | failed
  | skipped
  | critical_error
deriving DecidableEq, Repr

/-- Mirror of `FlowStep` from `config/settings.py` (dataclass defaults preserved). -/
structure FlowStep where
  name : String
  function_name : String := ""
  url_env_var : String := ""
  timeout : Int := 120
  required_params : List String := []
  parallel_group : Option String := none
deriving DecidableEq, Repr

/-- Mirror of `FlowStep.get_url`: `os.getenv(self.url_env_var)`, with the process
environment passed explicitly. -/
def FlowStep.get_url (env : String → Option String) (s : FlowStep) : Option String :=
  env s.url_env_var

/-- Mirror of `StepResult` from `core/models.py` (wall-clock fields omitted). -/
structure StepResult where
  step_name : String
  status : StepStatus
  response : Option Value := none
  error : Option String := none
  error_details : Option String := none
  url : Option String := none
  status_code : Option Int := none
deriving DecidableEq, Repr

/-- Mirror of `ExecutionContext` from `core/models.py`. -/
structure ExecutionContext where
  execution_id : String
  user_id : String
  session_id : String
  flow_name : String
  request_data : RequestData
  results : List StepResult := []
deriving DecidableEq, Repr

/-- Mirror of `ExecutionContext.add_result` (the append-only mutation, modelled
functionally). -/
def ExecutionContext.add_result (ctx : ExecutionContext) (r : StepResult) :
    ExecutionContext :=
  { ctx with results := ctx.results ++ [r] }

/-- Mirror of `HttpResponse` from `utils/http_client.py` (`duration` and the response
header map omitted; no claim mentions them). -/
structure HttpResponse where
  status_code : Int
  body : Option Value := none
  status : String := ""
  url : String := ""
  method : String := "POST"
  error : Option String := none
deriving DecidableEq, Repr

/-- Mirror of `HttpResponse.is_success`: `200 <= self.status_code < 300`. -/
def HttpResponse.is_success (r : HttpResponse) : Bool :=
  decide (200 ≤ r.status_code) && decide (r.status_code < 300)

/-- Mirror of `FlowRouter.should_skip_step` from `core/flow_router.py` (it reads only
`step.name` and the request mapping). -/
def should_skip_step (step : FlowStep) (request_data : RequestData) :
    Bool × Option String :=
  if step.name == "match_usuario_profissao" && (dget request_data "position_id").truthy then
    (true, some "position_id provided")
  else if step.name == "match_candidato" && (dget request_data "vacancy_id").truthy then
    (true, some "vacancy_id provided")
  else if step.name == "match_usuario_carreira" && (dget request_data "position_id").truthy
      && (dget request_data "career_name").truthy then
    (true, some "both position_id and career_name provided")
  else
    (false, none)

/-- The non-null entries of `request_data` among the listed keys, in key-list
order — the dict comprehension `{k: v for k, v in params.items() if v is not
None}` applied after building `params` from `request_data.get`. -/
def pickPresent (d : RequestData) (ks : List String) : List (String × Value) :=
  ks.filterMap fun k =>
    match dget d k with
    | .vnull => none
    | v => some (k, v)

/-- Mirror of `StepExecutor._prepare_payload` from `core/step_executor.py`.  Payloads are
insertion-ordered key/value lists (all keys involved are distinct, so list
append models `dict.update`). -/
def prepare_payload (step : FlowStep) (ctx : ExecutionContext) :
    List (String × Value) :=
  let payload : List (String × Value) := [("user_id", Value.vstr ctx.user_id)]
  if step.name == "create_embeddings" then
    [("sessionId", Value.vstr ctx.session_id)]
  else
    let payload :=
      if pyIn "vacancy" step.name then
        payload ++ pickPresent ctx.request_data
          ["vacancy_id", "vacancy_name", "vacancy_description"]
      else payload
    let payload :=
      if pyIn "profession" step.name || pyIn "carreira" step.name then
        payload ++ pickPresent ctx.request_data
          ["position_id", "career_name", "position_name"]
      else payload
    payload

/-- The generic vacancy-class token keys tried by `_prepare_headers`, in
priority order. -/
def genericVacancyKeys : List String :=
  ["match_candidato_token", "match_analysis_user_vacancy_token",
   "gap_analysis_user_vacancy_token", "suggest_course_vacancy_token"]

/-- The generic profession-class token keys tried by `_prepare_headers`, in
priority order. -/
def genericProfessionKeys : List String :=
  ["match_user_profession_token", "match_user_career_token",
   "match_analysis_user_profession_token", "gap_analysis_user_profession_token",
   "suggest_course_profession_token"]

/-- Mirror of `StepExecutor._prepare_headers` from `core/step_executor.py`.  The Python
`for key in [...]: if key in request_data: token = get(key); break` loop is the
first key satisfying membership; `if not token:` / `if token:` are value
truthiness. -/
def prepare_headers (step : FlowStep) (ctx : ExecutionContext) :
    List (String × String) :=
  let token_key := step.name ++ "_token"
  let token := dget ctx.request_data token_key
  let token :=
    if !token.truthy then
      if pyIn "vacancy" step.name then
        match genericVacancyKeys.find? (fun k => dmem ctx.request_data k) with
        | some k => dget ctx.request_data k
        | none => token
      else if pyIn "profession" step.name || pyIn "carreira" step.name then
        match genericProfessionKeys.find? (fun k => dmem ctx.request_data k) with
        | some k => dget ctx.request_data k
        | none => token
      else token
    else token
  if token.truthy then [("Authorization", "Bearer " ++ token.pyStr)] else []

/-- A Python exception: `str(e)` and `traceback.format_exc()`. -/
structure Fault where
  msg : String
  details : String
deriving DecidableEq, Repr

/-- The outcome of each phase of `StepExecutor.execute_step`'s `try` body:
each phase either returns a value or raises a `Fault`.  The concrete program
instantiates the first four phases with the pure functions above (see
`execute_step`); keeping them as oracles lets a fault be injected at any of
the phases the `except` clause guards. -/
structure StepPhases where
  skipCheck : Except Fault (Bool × Option String)
  urlResolve : Except Fault (Option String)
  payloadBuild : Except Fault (List (String × Value))
  headersBuild : Except Fault (List (String × String))
  transport : List (String × Value) → List (String × String) → String →
    Except Fault HttpResponse

/-- The `StepResult` built by `execute_step`'s `except` clause. -/
def critResult (name : String) (f : Fault) : StepResult :=
  { step_name := name, status := .critical_error,
    error := some f.msg, error_details := some f.details }

/-- Mirror of `StepExecutor.execute_step` from `core/step_executor.py`: the `try` body
phase by phase, with the `except Exception` clause mapping any phase fault to
a `critical_error` result.  Totality of this function is the code's
"no fault escapes the step runner" boundary. -/
def execute_step_phases (step : FlowStep) (ph : StepPhases) : StepResult :=
  match ph.skipCheck with
  | .error f => critResult step.name f
  | .ok (should_skip, skip_reason) =>
    if should_skip then
      { step_name := step.name, status := .skipped,
        error := some ("Skipped: " ++ pyShowOptStr skip_reason) }
    else
      match ph.urlResolve with
      | .error f => critResult step.name f
      | .ok url =>
        if !strOptTruthy url then
          { step_name := step.name, status := .skipped,
            error := some ("URL not configured: " ++ step.url_env_var) }
        else
          let u := url.getD ""
          match ph.payloadBuild with
          | .error f => critResult step.name f
          | .ok payload =>
            match ph.headersBuild with
            | .error f => critResult step.name f
            | .ok headers =>
              match ph.transport payload headers u with
              | .error f => critResult step.name f
              | .ok resp =>
                if resp.is_success then
                  { step_name := step.name, status := .success,
                    response := resp.body, error := none,
                    url := some u, status_code := some resp.status_code }
                else
                  { step_name := step.name, status := .failed,
                    response := resp.body,
                    error := some (pyOrStr resp.error
                      ("HTTP " ++ toString resp.status_code)),
                    url := some u, status_code := some resp.status_code }

/-- Mirror of `StepExecutor.execute_step` with the concrete skip rule, URL resolution,
payload and header construction of the source (these are pure and cannot
raise), and the HTTP transport as the remaining oracle. -/
def execute_step (env : String → Option String)
    (transport : List (String × Value) → List (String × String) → String →
      Except Fault HttpResponse)
    (step : FlowStep) (ctx : ExecutionContext) : StepResult :=
  execute_step_phases step
    { skipCheck := .ok (should_skip_step step ctx.request_data)
      urlResolve := .ok (step.get_url env)
      payloadBuild := .ok (prepare_payload step ctx)
      headersBuild := .ok (prepare_headers step ctx)
      transport := transport }

/-- The statement `if current_group: groups.append(current_group)` from
`FlowExecutor._group_steps_by_parallelism`. -/
def closeGroup (groups : List (List FlowStep)) (c : List FlowStep) :
    List (List FlowStep) :=
  if c.isEmpty then groups else groups ++ [c]

/-- The loop body of `FlowExecutor._group_steps_by_parallelism`
(`core/flow_executor.py`), with the mutable `groups` / `current_group` /
`current_parallel_group` state threaded explicitly.  `if step.parallel_group:`
is option-string truthiness; the tag comparison is Python `==` on
`Optional[str]`. -/
def groupStepsGo : List FlowStep → List (List FlowStep) → List FlowStep →
    Option String → List (List FlowStep)
  | [], groups, c, _ => closeGroup groups c
  | step :: rest, groups, c, t =>
    if strOptTruthy step.parallel_group then
      if step.parallel_group == t then
        groupStepsGo rest groups (c ++ [step]) t
      else
        groupStepsGo rest (closeGroup groups c) [step] step.parallel_group
    else
      if c.isEmpty then
        groupStepsGo rest (groups ++ [[step]]) [] t
      else
        groupStepsGo rest (groups ++ [c] ++ [[step]]) [] none

/-- Mirror of `FlowExecutor._group_steps_by_parallelism`. -/
def group_steps_by_parallelism (steps : List FlowStep) : List (List FlowStep) :=
  groupStepsGo steps [] [] none

/-- The group planner described by the specification: one group per maximal
contiguous run of steps sharing the same non-empty parallel tag, one singleton
group per untagged step. -/
def planSpec : List FlowStep → List (List FlowStep)
  | [] => []
  | s :: rest =>
    if strOptTruthy s.parallel_group then
      (s :: rest.takeWhile (fun x => x.parallel_group == s.parallel_group)) ::
        planSpec (rest.dropWhile (fun x => x.parallel_group == s.parallel_group))
    else
      [s] :: planSpec rest
termination_by l => l.length
decreasing_by
  all_goals simp only [List.length_cons]
  · exact Nat.lt_succ_of_le (List.dropWhile_sublist _).length_le
  · exact Nat.lt_succ_self _

/-- The list of results one group produces.  `exec` abstracts
`StepExecutor.execute_step` (whose output depends only on the step and the
immutable part of the context), and `sched` abstracts the `as_completed`
completion order of a parallel group — a singleton group takes the direct
sequential path of `execute_flow` and never consults `sched`. -/
def groupRun (exec : FlowStep → StepResult)
    (sched : List FlowStep → List FlowStep) (g : List FlowStep) :
    List StepResult :=
  if g.length == 1 then g.map exec else (sched g).map exec

/-- The check `any(r.status == StepStatus.CRITICAL_ERROR for r in rs)`; for a singleton
list this coincides with the sequential branch's direct status check. -/
def hasCritical (rs : List StepResult) : Bool :=
  rs.any fun r => r.status == StepStatus.critical_error

/-- The group loop of `FlowExecutor.execute_flow` (lines 63–107): run the
group, append its results to the accumulator and to the context, and `break`
if the group contains a critical error.  (The `except` arm of
`_execute_parallel_steps` is dead code under the total `execute_step` model
and is not reachable here.) -/
def executeGroupsLoop (exec : FlowStep → StepResult)
    (sched : List FlowStep → List FlowStep) :
    List (List FlowStep) → List StepResult → ExecutionContext →
    List StepResult × ExecutionContext
  | [], results, ctx => (results, ctx)
  | g :: rest, results, ctx =>
    let rs := groupRun exec sched g
    let results' := results ++ rs
    let ctx' := { ctx with results := ctx.results ++ rs }
    if hasCritical rs then (results', ctx')
    else executeGroupsLoop exec sched rest results' ctx'

/-- Mirror of `FlowExecutor.execute_flow`: plan the groups, then run the group loop. -/
def execute_flow (exec : FlowStep → StepResult)
    (sched : List FlowStep → List FlowStep) (steps : List FlowStep)
    (ctx : ExecutionContext) : List StepResult × ExecutionContext :=
  executeGroupsLoop exec sched (group_steps_by_parallelism steps) [] ctx

/-- The results the engine produces from a group list, independent of any
accumulator or context: every group before and including the first one with a
critical error, nothing after it. -/
def dispatched (exec : FlowStep → StepResult)
    (sched : List FlowStep → List FlowStep) :
    List (List FlowStep) → List StepResult
  | [] => []
  | g :: rest =>
    let rs := groupRun exec sched g
    if hasCritical rs then rs else rs ++ dispatched exec sched rest

/-- The class-generic fallback token-key list `_prepare_headers` consults for a
step: the vacancy list, the profession/career list, or nothing. -/
def genericKeysFor (step : FlowStep) : List String :=
  if pyIn "vacancy" step.name then genericVacancyKeys
  else if pyIn "profession" step.name || pyIn "carreira" step.name then
    genericProfessionKeys
  else []

/-- Header construction exactly as claim C9 words it: the step-specific key is
looked up first, and the fallback list is consulted only when that key is
*absent* from the request parameters; a bearer header is attached when the
resulting token is an actual (truthy) token. -/
def prepare_headers_claim (step : FlowStep) (ctx : ExecutionContext) :
    List (String × String) :=
  let token_key := step.name ++ "_token"
  let token :=
    if dmem ctx.request_data token_key then dget ctx.request_data token_key
    else
      match (genericKeysFor step).find? (fun k => dmem ctx.request_data k) with
      | some k => dget ctx.request_data k
      | none => .vnull
  if token.truthy then [("Authorization", "Bearer " ++ token.pyStr)] else []

/-- Header construction as the amended claim words it: the fallback list is
consulted whenever the step-specific key's value is falsy (absent, null, or
empty), taking the first key present; a bearer header is attached exactly when
the resulting token is truthy. -/
def prepare_headers_amended (step : FlowStep) (ctx : ExecutionContext) :
    List (String × String) :=
  let specific := dget ctx.request_data (step.name ++ "_token")
  let token :=
    if specific.truthy then specific
    else
      match (genericKeysFor step).find? (fun k => dmem ctx.request_data k) with
      | some k => dget ctx.request_data k
      | none => specific
  if token.truthy then [("Authorization", "Bearer " ++ token.pyStr)] else []

/-! Concrete fixtures used by the witness theorems below. -/

/-- Demo step without a parallel tag. -/
def stA : FlowStep := { name := "a" }

/-- Demo step in parallel group `g`. -/
def stB1 : FlowStep := { name := "b1", parallel_group := some "g" }

/-- Second demo step in parallel group `g`. -/
def stB2 : FlowStep := { name := "b2", parallel_group := some "g" }

/-- Demo step without a parallel tag, after the parallel group. -/
def stC : FlowStep := { name := "c" }

/-- Demo step whose execution yields a critical error under `execDemo`. -/
def stBoom : FlowStep := { name := "boom", parallel_group := some "g" }

/-- A four-step demo flow: singleton, a parallel pair, singleton. -/
def demoSteps : List FlowStep := [stA, stB1, stB2, stC]

/-- Demo group list whose middle (parallel) group contains a critical error. -/
def demoAbortGroups : List (List FlowStep) := [[stA], [stB1, stBoom, stB2], [stC]]

/-- Demo step-execution oracle: the step named `boom` fails critically,
everything else succeeds. -/
def execDemo (s : FlowStep) : StepResult :=
  if s.name == "boom" then { step_name := s.name, status := .critical_error }
  else { step_name := s.name, status := .success }

/-- Demo execution context. -/
def demoCtx : ExecutionContext :=
  { execution_id := "exec-1", user_id := "u1", session_id := "s1",
    flow_name := "first_login", request_data := [] }

/-- Demo phase bundle that reaches the transport and gets a 500 with an error
body. -/
def phOk : StepPhases :=
  { skipCheck := .ok (false, none)
    urlResolve := .ok (some "http://svc")
    payloadBuild := .ok []
    headersBuild := .ok []
    transport := fun _ _ _ => .ok { status_code := 500, error := some "boom" } }

/-- Demo step used with `phOk`. -/
def demoStep : FlowStep := { name := "gap_analysis_user_vacancy",
                             url_env_var := "DEFAULT_GAP_ANALYSIS_USER_VACANCY_URL" }

/-- The `match_candidato` step from `config/settings.py`. -/
def stepMC : FlowStep := { name := "match_candidato",
                           function_name := "_call_match_candidato",
                           url_env_var := "DEFAULT_MATCH_CANDIDATO_URL" }

/-- A context whose request parameters trigger the `match_candidato` skip
rule. -/
def ctxSkip : ExecutionContext :=
  { execution_id := "exec-2", user_id := "u2", session_id := "s2",
    flow_name := "first_login", request_data := [("vacancy_id", .vstr "v1")] }

/-- An environment with no URL configured. -/
def envEmpty : String → Option String := fun _ => none

/-- A transport oracle that would fault if it were ever invoked. -/
def transportNever : List (String × Value) → List (String × String) → String →
    Except Fault HttpResponse :=
  fun _ _ _ => .error { msg := "transport reached", details := "trace" }

/-- The `match_analysis_user_vacancy` step from `config/settings.py`
(vacancy-class, member of the `vacancy_parallel` group). -/
def stepMAUV : FlowStep :=
  { name := "match_analysis_user_vacancy",
    function_name := "_call_match_analysis_user_vacancy",
    url_env_var := "DEFAULT_MATCH_ANALYSIS_USER_VACANCY_URL",
    parallel_group := some "vacancy_parallel" }

/-- C9's distinguishing input: the step-specific token key is present but
empty, and a generic vacancy key holds a real token. -/
def ctxC9 : ExecutionContext :=
  { execution_id := "exec-3", user_id := "u3", session_id := "s3",
    flow_name := "first_login",
    request_data := [("match_analysis_user_vacancy_token", .vstr ""),
                     ("match_candidato_token", .vstr "abc")] }

/-- A context with one non-null vacancy parameter, for the payload witness. -/
def ctxC8 : ExecutionContext :=
  { execution_id := "exec-4", user_id := "u1", session_id := "s4",
    flow_name := "first_login",
    request_data := [("vacancy_id", .vstr "v7"), ("vacancy_name", .vnull)] }

/-! Helper lemmas about the group planner. -/

theorem closeGroup_flatten (groups : List (List FlowStep)) (c : List FlowStep) :
    (closeGroup groups c).flatten = groups.flatten ++ c := by
  unfold closeGroup
  split
  · next h => simp [List.isEmpty_iff.mp h]
  · simp

theorem closeGroup_eq (groups : List (List FlowStep)) (c : List FlowStep) :
    closeGroup groups c = groups ++ closeGroup [] c := by
  unfold closeGroup
  split <;> simp

theorem groupStepsGo_flatten (steps : List FlowStep) :
    ∀ groups c t,
      (groupStepsGo steps groups c t).flatten = groups.flatten ++ c ++ steps := by
  induction steps with
  | nil =>
    intro groups c t
    simp [groupStepsGo, closeGroup_flatten]
  | cons s rest ih =>
    intro groups c t
    unfold groupStepsGo
    split
    · split
      · rw [ih]; simp
      · rw [ih, closeGroup_flatten]; simp
    · split
      · next h => rw [ih]; simp [List.isEmpty_iff.mp h]
      · rw [ih]; simp

theorem groupStepsGo_ne_nil (steps : List FlowStep) :
    ∀ groups c t, (∀ g ∈ groups, g ≠ []) →
      ∀ g ∈ groupStepsGo steps groups c t, g ≠ [] := by
  induction steps with
  | nil =>
    intro groups c t hg
    unfold groupStepsGo closeGroup
    split
    · exact hg
    · next h =>
      intro g hmem
      rcases List.mem_append.mp hmem with h1 | h1
      · exact hg g h1
      · simp only [List.mem_singleton] at h1
        subst h1
        simpa [List.isEmpty_iff] using h
  | cons s rest ih =>
    intro groups c t hg
    unfold groupStepsGo
    split
    · split
      · exact ih _ _ _ hg
      · refine ih _ _ _ ?_
        unfold closeGroup
        split
        · exact hg
        · next h =>
          intro g hmem
          rcases List.mem_append.mp hmem with h1 | h1
          · exact hg g h1
          · simp only [List.mem_singleton] at h1
            subst h1
            simpa [List.isEmpty_iff] using h
    · split
      · refine ih _ _ _ ?_
        intro g hmem
        rcases List.mem_append.mp hmem with h1 | h1
        · exact hg g h1
        · simp only [List.mem_singleton] at h1
          subst h1
          simp
      · next h =>
        refine ih _ _ _ ?_
        intro g hmem
        rcases List.mem_append.mp hmem with h1 | h1
        · rcases List.mem_append.mp h1 with h2 | h2
          · exact hg g h2
          · simp only [List.mem_singleton] at h2
            subst h2
            simpa [List.isEmpty_iff] using h
        · simp only [List.mem_singleton] at h1
          subst h1
          simp

theorem groupStepsGo_acc (steps : List FlowStep) :
    ∀ groups c t,
      groupStepsGo steps groups c t = groups ++ groupStepsGo steps [] c t := by
  induction steps with
  | nil =>
    intro groups c t
    simp only [groupStepsGo]
    exact closeGroup_eq groups c
  | cons s rest ih =>
    intro groups c t
    simp only [groupStepsGo]
    by_cases h1 : strOptTruthy s.parallel_group = true
    · by_cases h2 : (s.parallel_group == t) = true
      · simp only [if_pos h1, if_pos h2]
        exact ih groups (c ++ [s]) t
      · simp only [if_pos h1, if_neg h2]
        rw [ih (closeGroup groups c), ih (closeGroup [] c), closeGroup_eq groups c]
        simp
    · by_cases h3 : c.isEmpty = true
      · simp only [if_neg h1, if_pos h3]
        rw [ih (groups ++ [[s]]), ih ([] ++ [[s]])]
        simp
      · simp only [if_neg h1, if_neg h3]
        rw [ih (groups ++ [c] ++ [[s]]), ih ([] ++ [c] ++ [[s]])]
        simp

theorem strOptTruthy_spec (o : Option String) (h : strOptTruthy o = true) :
    ∃ x, o = some x ∧ x ≠ "" := by
  cases o with
  | none => simp [strOptTruthy] at h
  | some x =>
    refine ⟨x, rfl, ?_⟩
    simpa [strOptTruthy] using h

theorem plan_combined (n : Nat) :
    ∀ steps : List FlowStep, steps.length ≤ n →
      (groupStepsGo steps [] [] none = planSpec steps) ∧
      (∀ c tg, c ≠ [] → tg ≠ "" →
        groupStepsGo steps [] c (some tg) =
          (c ++ steps.takeWhile (fun x => x.parallel_group == some tg)) ::
            planSpec (steps.dropWhile (fun x => x.parallel_group == some tg))) := by
  induction n with
  | zero =>
    intro steps hlen
    have hs : steps = [] := List.length_eq_zero.mp (Nat.le_zero.mp hlen)
    subst hs
    constructor
    · simp [groupStepsGo, closeGroup, planSpec]
    · intro c tg hc _
      simp [groupStepsGo, closeGroup, List.isEmpty_iff, hc, planSpec]
  | succ n ih =>
    intro steps hlen
    match steps with
    | [] => exact ih [] (by simp)
    | s :: rest =>
      have hr : rest.length ≤ n := by
        simpa using Nat.succ_le_succ_iff.mp (by simpa using hlen)
      constructor
      · show groupStepsGo (s :: rest) [] [] none = planSpec (s :: rest)
        unfold groupStepsGo
        by_cases h1 : strOptTruthy s.parallel_group
        · obtain ⟨x, hx, hxe⟩ := strOptTruthy_spec _ h1
        -- a truthy tag is never equal to the initial `none`
          rw [if_pos h1, if_neg (by simp [hx])]
          rw [show closeGroup [] [] = [] from rfl]
          rw [hx]
          rw [(ih rest hr).2 [s] x (by simp) hxe]
          rw [planSpec]
          rw [if_pos h1, hx]
          simp
        · rw [if_neg h1]
          rw [if_pos (by simp)]
          rw [groupStepsGo_acc, (ih rest hr).1]
          rw [planSpec, if_neg h1]
          simp
      · intro c tg hc htg
        show groupStepsGo (s :: rest) [] c (some tg) = _
        unfold groupStepsGo
        by_cases h1 : strOptTruthy s.parallel_group
        · by_cases h2 : s.parallel_group = some tg
          · rw [if_pos h1, if_pos (by simp [h2])]
            rw [(ih rest hr).2 (c ++ [s]) tg (by simp) htg]
            rw [List.takeWhile_cons, List.dropWhile_cons]
            rw [if_pos (by simp [h2]), if_pos (by simp [h2])]
            simp
          · obtain ⟨x, hx, hxe⟩ := strOptTruthy_spec _ h1
            rw [if_pos h1, if_neg (by simpa using h2)]
            rw [show closeGroup [] c = [c] by simp [closeGroup, List.isEmpty_iff, hc]]
            rw [hx, groupStepsGo_acc, (ih rest hr).2 [s] x (by simp) hxe]
            rw [List.takeWhile_cons, List.dropWhile_cons]
            rw [if_neg (by simpa using h2), if_neg (by simpa using h2)]
            rw [planSpec, if_pos h1, hx]
            simp
        · have hne : ¬ s.parallel_group = some tg := by
            intro h
            rw [h] at h1
            exact h1 (by simpa [strOptTruthy] using htg)
          rw [if_neg h1]
          rw [if_neg (by simpa [List.isEmpty_iff] using hc)]
          rw [groupStepsGo_acc, (ih rest hr).1]
          rw [List.takeWhile_cons, List.dropWhile_cons]
          rw [if_neg (by simpa using hne), if_neg (by simpa using hne)]
          rw [planSpec, if_neg h1]
          simp

/-- C2: for every list of steps, the group planner returns an ordered list of
non-empty groups whose flattened concatenation, in order, equals the input
list exactly — no step dropped, duplicated, or reordered across groups. -/
theorem group_plan_lossless (steps : List FlowStep) :
    (group_steps_by_parallelism steps).flatten = steps ∧
      ∀ g ∈ group_steps_by_parallelism steps, g ≠ [] := by
  constructor
  · simpa [group_steps_by_parallelism] using groupStepsGo_flatten steps [] [] none
  · exact groupStepsGo_ne_nil steps [] [] none (by simp)

/-- Witness for C2 on the concrete demo flow. -/
theorem group_plan_lossless_witness :
    (group_steps_by_parallelism demoSteps).flatten = demoSteps ∧
      [stA] ≠ ([] : List FlowStep) :=
  ⟨(group_plan_lossless demoSteps).1,
   (group_plan_lossless demoSteps).2 [stA] (by decide)⟩

/-- C3: the planner's output is exactly one group per maximal contiguous run
of steps sharing the same non-empty parallel tag and one singleton group per
untagged step (`planSpec`); in particular two runs with equal tags separated
by an untagged or differently-tagged step are never merged, since `planSpec`
ends a group at the first step whose tag differs. -/
theorem group_plan_maximal_runs (steps : List FlowStep) :
    group_steps_by_parallelism steps = planSpec steps :=
  (plan_combined steps.length steps le_rfl).1

/-! Helper lemmas about the flow execution engine. -/

theorem executeGroupsLoop_eq (exec : FlowStep → StepResult)
    (sched : List FlowStep → List FlowStep) (groups : List (List FlowStep)) :
    ∀ (acc : List StepResult) (ctx : ExecutionContext),
      executeGroupsLoop exec sched groups acc ctx =
        (acc ++ dispatched exec sched groups,
         { ctx with results := ctx.results ++ dispatched exec sched groups }) := by
  induction groups with
  | nil =>
    intro acc ctx
    simp [executeGroupsLoop, dispatched]
  | cons g rest ih =>
    intro acc ctx
    simp only [executeGroupsLoop, dispatched]
    by_cases h : hasCritical (groupRun exec sched g) = true
    · simp [h]
    · simp only [if_neg h]
      rw [ih]
      simp

theorem dispatched_no_critical (exec : FlowStep → StepResult)
    (sched : List FlowStep → List FlowStep) (groups : List (List FlowStep))
    (h : ∀ g ∈ groups, hasCritical (groupRun exec sched g) = false) :
    dispatched exec sched groups = (groups.map (groupRun exec sched)).flatten := by
  induction groups with
  | nil => rfl
  | cons g rest ih =>
    simp only [dispatched]
    rw [if_neg (by simp [h g (List.mem_cons_self g rest)])]
    rw [ih fun g' hg' => h g' (List.mem_cons_of_mem g hg')]
    simp

theorem dispatched_abort (exec : FlowStep → StepResult)
    (sched : List FlowStep → List FlowStep) :
    ∀ (groups : List (List FlowStep)) (k : Nat), k < groups.length →
      (∀ i, i < k → hasCritical (groupRun exec sched (groups.getD i [])) = false) →
      hasCritical (groupRun exec sched (groups.getD k [])) = true →
      dispatched exec sched groups =
        ((groups.take (k + 1)).map (groupRun exec sched)).flatten := by
  intro groups
  induction groups with
  | nil =>
    intro k hk
    simp at hk
  | cons g rest ih =>
    intro k hk hpre hcrit
    match k with
    | 0 =>
      simp only [List.getD_cons_zero] at hcrit
      simp only [dispatched, if_pos hcrit]
      simp
    | k + 1 =>
      have h0 : hasCritical (groupRun exec sched g) = false := by
        simpa using hpre 0 (Nat.succ_pos k)
      simp only [dispatched]
      rw [if_neg (by simp [h0])]
      rw [List.take_succ_cons, List.map_cons, List.flatten_cons]
      rw [ih k (by simpa using hk)
        (fun i hi => by simpa using hpre (i + 1) (Nat.succ_lt_succ hi))
        (by simpa using hcrit)]

/-- C1: over any ordered group list, the engine dispatches groups strictly in
order, and terminates either after the last group (when no group's results
contain a critical error — Success, Failed and Skipped never stop processing)
or immediately after the first group whose results contain a critical error:
that group's results are all still produced and appended to the returned list
and the context, and no later group contributes anything. -/
theorem execute_flow_abort_semantics (exec : FlowStep → StepResult)
    (sched : List FlowStep → List FlowStep) (groups : List (List FlowStep))
    (ctx : ExecutionContext) :
    ((∀ g ∈ groups, hasCritical (groupRun exec sched g) = false) →
      (executeGroupsLoop exec sched groups [] ctx).1 =
        (groups.map (groupRun exec sched)).flatten ∧
      (executeGroupsLoop exec sched groups [] ctx).2.results =
        ctx.results ++ (groups.map (groupRun exec sched)).flatten) ∧
    (∀ k, k < groups.length →
      (∀ i, i < k → hasCritical (groupRun exec sched (groups.getD i [])) = false) →
      hasCritical (groupRun exec sched (groups.getD k [])) = true →
      (executeGroupsLoop exec sched groups [] ctx).1 =
        ((groups.take (k + 1)).map (groupRun exec sched)).flatten ∧
      (executeGroupsLoop exec sched groups [] ctx).2.results =
        ctx.results ++ ((groups.take (k + 1)).map (groupRun exec sched)).flatten) := by
  constructor
  · intro h
    rw [executeGroupsLoop_eq, dispatched_no_critical exec sched groups h]
    exact ⟨by simp, rfl⟩
  · intro k hk hpre hcrit
    rw [executeGroupsLoop_eq, dispatched_abort exec sched groups k hk hpre hcrit]
    exact ⟨by simp, rfl⟩

/-- Witness for C1: the three-group demo flow whose middle parallel group
contains a critical error yields exactly the first two groups' results. -/
theorem execute_flow_abort_semantics_witness :
    (executeGroupsLoop execDemo id demoAbortGroups [] demoCtx).1 =
      ((demoAbortGroups.take 2).map (groupRun execDemo id)).flatten ∧
    (executeGroupsLoop execDemo id demoAbortGroups [] demoCtx).2.results =
      demoCtx.results ++ ((demoAbortGroups.take 2).map (groupRun execDemo id)).flatten :=
  (execute_flow_abort_semantics execDemo id demoAbortGroups demoCtx).2 1
    (by decide)
    (fun i hi => by
      have h0 : i = 0 := by omega
      subst h0
      decide)
    (by decide)

/-- C7: the engine's only effect on the context is appending the returned
result list, in order, to the context's results; the execution id, user id,
session id, flow name, and request parameter mapping are unchanged. -/
theorem execute_flow_context_frame (exec : FlowStep → StepResult)
    (sched : List FlowStep → List FlowStep) (steps : List FlowStep)
    (ctx : ExecutionContext) :
    (execute_flow exec sched steps ctx).2.results =
      ctx.results ++ (execute_flow exec sched steps ctx).1 ∧
    (execute_flow exec sched steps ctx).2.execution_id = ctx.execution_id ∧
    (execute_flow exec sched steps ctx).2.user_id = ctx.user_id ∧
    (execute_flow exec sched steps ctx).2.session_id = ctx.session_id ∧
    (execute_flow exec sched steps ctx).2.flow_name = ctx.flow_name ∧
    (execute_flow exec sched steps ctx).2.request_data = ctx.request_data := by
  unfold execute_flow
  rw [executeGroupsLoop_eq]
  exact ⟨by simp, rfl, rfl, rfl, rfl, rfl⟩

theorem groupRun_length (exec : FlowStep → StepResult)
    (sched : List FlowStep → List FlowStep) (g : List FlowStep)
    (hp : (sched g).Perm g) : (groupRun exec sched g).length = g.length := by
  unfold groupRun
  split
  · simp
  · simp [hp.length_eq]

/-- C4: when no group's results contain a critical error, the engine returns
exactly one result per input step (both in the returned list and in the
context), a parallel group of `N` steps contributes a permutation of its `N`
per-step results with no losses or duplicates, and a singleton group's result
list is its step's result in step order. -/
theorem execute_flow_result_count (exec : FlowStep → StepResult)
    (sched : List FlowStep → List FlowStep)
    (hsched : ∀ g, (sched g).Perm g) (steps : List FlowStep)
    (ctx : ExecutionContext)
    (hnc : ∀ g ∈ group_steps_by_parallelism steps,
      hasCritical (groupRun exec sched g) = false) :
    (execute_flow exec sched steps ctx).1.length = steps.length ∧
    (execute_flow exec sched steps ctx).2.results.length =
      ctx.results.length + steps.length ∧
    (∀ g ∈ group_steps_by_parallelism steps,
      (groupRun exec sched g).Perm (g.map exec)) ∧
    (∀ g ∈ group_steps_by_parallelism steps,
      g.length = 1 → groupRun exec sched g = g.map exec) := by
  have hflat : (group_steps_by_parallelism steps).flatten = steps := by
    simpa [group_steps_by_parallelism] using groupStepsGo_flatten steps [] [] none
  have hlen : (dispatched exec sched (group_steps_by_parallelism steps)).length =
      steps.length := by
    rw [dispatched_no_critical exec sched _ hnc]
    rw [List.length_flatten, List.map_map]
    rw [show List.map (List.length ∘ groupRun exec sched)
          (group_steps_by_parallelism steps)
        = List.map List.length (group_steps_by_parallelism steps) from
      List.map_congr_left (fun g _ => groupRun_length exec sched g (hsched g))]
    rw [← List.length_flatten, hflat]
  refine ⟨?_, ?_, ?_, ?_⟩
  · unfold execute_flow
    rw [executeGroupsLoop_eq]
    simpa using hlen
  · unfold execute_flow
    rw [executeGroupsLoop_eq]
    simpa using hlen
  · intro g _
    unfold groupRun
    split
    · exact List.Perm.refl _
    · exact (hsched g).map exec
  · intro g _ hg1
    unfold groupRun
    rw [if_pos (by simpa using hg1)]

/-- Witness for C4 on the concrete demo flow (identity schedule, all steps
succeed). -/
theorem execute_flow_result_count_witness :
    (execute_flow execDemo id demoSteps demoCtx).1.length = demoSteps.length :=
  (execute_flow_result_count execDemo id (fun g => List.Perm.refl g) demoSteps
    demoCtx (by decide)).1

/-! Claims about the step runner. -/

/-- C5: once the step runner reaches the transport invocation, the result is
Success exactly when the transport reports a 2xx status; a completed call that
is not 2xx (including the explicit timeout/connection-error value surfaced
with status code 0) yields Failed carrying the error text and status code; a
fault raised in any phase — skip evaluation, target resolution, payload or
header construction, or the invocation itself — yields CriticalError carrying
the fault message and diagnostic detail.  The runner never propagates a
fault: `execute_step_phases` is a total function into `StepResult`. -/
theorem execute_step_outcome_classification (step : FlowStep) (ph : StepPhases) :
    (∀ f, ph.skipCheck = .error f →
      execute_step_phases step ph = critResult step.name f) ∧
    (∀ sr f, ph.skipCheck = .ok (false, sr) → ph.urlResolve = .error f →
      execute_step_phases step ph = critResult step.name f) ∧
    (∀ sr url f, ph.skipCheck = .ok (false, sr) → ph.urlResolve = .ok url →
      strOptTruthy url = true → ph.payloadBuild = .error f →
      execute_step_phases step ph = critResult step.name f) ∧
    (∀ sr url payload f, ph.skipCheck = .ok (false, sr) → ph.urlResolve = .ok url →
      strOptTruthy url = true → ph.payloadBuild = .ok payload →
      ph.headersBuild = .error f →
      execute_step_phases step ph = critResult step.name f) ∧
    (∀ sr url payload headers f, ph.skipCheck = .ok (false, sr) →
      ph.urlResolve = .ok url → strOptTruthy url = true →
      ph.payloadBuild = .ok payload → ph.headersBuild = .ok headers →
      ph.transport payload headers (url.getD "") = .error f →
      execute_step_phases step ph = critResult step.name f) ∧
    (∀ sr url payload headers resp, ph.skipCheck = .ok (false, sr) →
      ph.urlResolve = .ok url → strOptTruthy url = true →
      ph.payloadBuild = .ok payload → ph.headersBuild = .ok headers →
      ph.transport payload headers (url.getD "") = .ok resp →
      ((execute_step_phases step ph).status = .success ↔ resp.is_success = true) ∧
      (resp.is_success = false →
        (execute_step_phases step ph).status = .failed ∧
        (execute_step_phases step ph).error =
          some (pyOrStr resp.error ("HTTP " ++ toString resp.status_code)) ∧
        (execute_step_phases step ph).status_code = some resp.status_code) ∧
      (resp.is_success = true →
        (execute_step_phases step ph).status = .success ∧
        (execute_step_phases step ph).error = none ∧
        (execute_step_phases step ph).status_code = some resp.status_code)) := by
  refine ⟨?_, ?_, ?_, ?_, ?_, ?_⟩
  · intro f h
    simp [execute_step_phases, h]
  · intro sr f h1 h2
    simp [execute_step_phases, h1, h2]
  · intro sr url f h1 h2 h3 h4
    simp [execute_step_phases, h1, h2, h3, h4]
  · intro sr url payload f h1 h2 h3 h4 h5
    simp [execute_step_phases, h1, h2, h3, h4, h5]
  · intro sr url payload headers f h1 h2 h3 h4 h5 h6
    simp [execute_step_phases, h1, h2, h3, h4, h5, h6]
  · intro sr url payload headers resp h1 h2 h3 h4 h5 h6
    by_cases hs : resp.is_success = true
    · simp [execute_step_phases, h1, h2, h3, h4, h5, h6, hs]
    · simp [execute_step_phases, h1, h2, h3, h4, h5, h6, hs]

/-- Witness for C5: a concrete phase bundle reaching the transport and
receiving HTTP 500 with an error body is classified Failed with that error
text and status code. -/
theorem execute_step_outcome_classification_witness :
    (execute_step_phases demoStep phOk).status = .failed ∧
    (execute_step_phases demoStep phOk).error = some "boom" ∧
    (execute_step_phases demoStep phOk).status_code = some 500 := by
  have h := ((execute_step_outcome_classification demoStep phOk).2.2.2.2.2
    none (some "http://svc") [] []
    { status_code := 500, error := some "boom" }
    rfl rfl (by decide) rfl rfl rfl).2.1 (by decide)
  exact ⟨h.1, by rw [h.2.1]; decide, h.2.2⟩

/-- C6: the concrete step runner returns Skipped exactly when the skip rule
matches or the step's URL is unresolved (its environment variable unset or
empty); in both cases the transport oracle is never consulted, and the
unresolved-target case yields Skipped with the configuration-missing reason
rather than CriticalError. -/
theorem execute_step_skip_semantics (env : String → Option String)
    (transport : List (String × Value) → List (String × String) → String →
      Except Fault HttpResponse)
    (step : FlowStep) (ctx : ExecutionContext) :
    ((execute_step env transport step ctx).status = .skipped ↔
      ((should_skip_step step ctx.request_data).1 = true ∨
        strOptTruthy (step.get_url env) = false)) ∧
    (((should_skip_step step ctx.request_data).1 = true ∨
        strOptTruthy (step.get_url env) = false) →
      ∀ transport2 : List (String × Value) → List (String × String) → String →
        Except Fault HttpResponse,
        execute_step env transport2 step ctx = execute_step env transport step ctx) ∧
    ((should_skip_step step ctx.request_data).1 = false →
      strOptTruthy (step.get_url env) = false →
      (execute_step env transport step ctx).status = .skipped ∧
      (execute_step env transport step ctx).error =
        some ("URL not configured: " ++ step.url_env_var)) := by
  rcases hss : should_skip_step step ctx.request_data with ⟨b, r⟩
  cases b with
  | true =>
    refine ⟨?_, ?_, ?_⟩
    · simp [execute_step, execute_step_phases, hss]
    · intro _ transport2
      simp [execute_step, execute_step_phases, hss]
    · intro h
      simp at h
  | false =>
    cases hu : strOptTruthy (step.get_url env) with
    | false =>
      refine ⟨?_, ?_, ?_⟩
      · simp [execute_step, execute_step_phases, hss, hu]
      · intro _ transport2
        simp [execute_step, execute_step_phases, hss, hu]
      · intro _ _
        simp [execute_step, execute_step_phases, hss, hu]
    | true =>
      refine ⟨?_, ?_, ?_⟩
      · simp only [execute_step, execute_step_phases, hss, hu]
        cases ht : transport (prepare_payload step ctx) (prepare_headers step ctx)
            ((step.get_url env).getD "") with
        | error f => simp [ht, critResult, Bool.not_true, hu]
        | ok resp =>
          by_cases hr : resp.is_success = true
          · simp [ht, hr, Bool.not_true, hu]
          · simp [ht, hr, Bool.not_true, hu]
      · intro h
        rcases h with h | h
        · simp at h
        · simp at h
      · intro _ h
        simp at h

/-- Witness for C6: with the `match_candidato` skip rule firing, the runner
returns Skipped. -/
theorem execute_step_skip_semantics_witness :
    (execute_step envEmpty transportNever stepMC ctxSkip).status = .skipped :=
  (execute_step_skip_semantics envEmpty transportNever stepMC ctxSkip).1.mpr
    (Or.inl (by decide))

/-! Claims about payload, header, and skip-rule construction. -/

/-- C8: the `create_embeddings` payload is exactly the session identity,
overriding the base payload entirely; every other step's payload is the
subject identity, extended with exactly the non-null vacancy fields when the
step name contains "vacancy" and with exactly the non-null profession fields
when it contains "profession" or "carreira". -/
theorem prepare_payload_shape (step : FlowStep) (ctx : ExecutionContext) :
    (step.name = "create_embeddings" →
      prepare_payload step ctx = [("sessionId", Value.vstr ctx.session_id)]) ∧
    (step.name ≠ "create_embeddings" →
      prepare_payload step ctx =
        [("user_id", Value.vstr ctx.user_id)] ++
        (if pyIn "vacancy" step.name then
          pickPresent ctx.request_data
            ["vacancy_id", "vacancy_name", "vacancy_description"]
        else []) ++
        (if pyIn "profession" step.name || pyIn "carreira" step.name then
          pickPresent ctx.request_data
            ["position_id", "career_name", "position_name"]
        else [])) := by
  constructor
  · intro h
    simp [prepare_payload, h]
  · intro h
    unfold prepare_payload
    rw [if_neg (by simpa using h)]
    by_cases h1 : pyIn "vacancy" step.name = true <;>
      by_cases h2 : (pyIn "profession" step.name || pyIn "carreira" step.name) = true <;>
        simp [h1, h2]

/-- Witness for C8: the vacancy-class demo step with one non-null and one null
vacancy parameter gets exactly the subject identity plus that one field. -/
theorem prepare_payload_shape_witness :
    prepare_payload stepMAUV ctxC8 =
      [("user_id", Value.vstr "u1"), ("vacancy_id", Value.vstr "v7")] := by
  rw [(prepare_payload_shape stepMAUV ctxC8).2 (by decide)]
  decide

/-- C9 counterexample: for the `match_analysis_user_vacancy` step with its
step-specific token key present but holding the empty string, and a generic
vacancy token present, the code falls back to the generic token while the
claim's procedure (fallback only when the specific key is absent) attaches no
header — so the claimed characterization is false at this input. -/
theorem prepare_headers_claim_counterexample :
    prepare_headers stepMAUV ctxC9 = [("Authorization", "Bearer abc")] ∧
    prepare_headers_claim stepMAUV ctxC9 = [] ∧
    prepare_headers stepMAUV ctxC9 ≠ prepare_headers_claim stepMAUV ctxC9 := by
  refine ⟨by decide, by decide, by decide⟩

/-- C9 amended: header construction consults the fallback key list whenever
the step-specific key's value is falsy (absent, null, or empty) — not only
when the key is absent — taking the first generic key present; an
`Authorization: Bearer <token>` header is attached exactly when the resulting
token is truthy, and otherwise the headers are empty. -/
theorem prepare_headers_falsy_fallback (step : FlowStep) (ctx : ExecutionContext) :
    prepare_headers step ctx = prepare_headers_amended step ctx := by
  cases ht : (dget ctx.request_data (step.name ++ "_token")).truthy with
  | true => simp [prepare_headers, prepare_headers_amended, ht]
  | false =>
    by_cases h1 : pyIn "vacancy" step.name = true
    · simp [prepare_headers, prepare_headers_amended, genericKeysFor, ht, h1]
    · by_cases h2 : (pyIn "profession" step.name || pyIn "carreira" step.name) = true
      · simp [prepare_headers, prepare_headers_amended, genericKeysFor, ht, h1, h2]
      · simp [prepare_headers, prepare_headers_amended, genericKeysFor, ht, h1, h2]

/-- C10: the skip-rule evaluator is a pure function of the step name and the
request parameters, returning a positive answer (with its fixed reason
string) in exactly the three listed cases and `(false, none)` in every other
case. -/
theorem should_skip_step_characterization (step : FlowStep) (rd : RequestData) :
    ((should_skip_step step rd).1 = true ↔
      (step.name = "match_usuario_profissao" ∧
        (dget rd "position_id").truthy = true) ∨
      (step.name = "match_candidato" ∧ (dget rd "vacancy_id").truthy = true) ∨
      (step.name = "match_usuario_carreira" ∧
        (dget rd "position_id").truthy = true ∧
        (dget rd "career_name").truthy = true)) ∧
    ((should_skip_step step rd).1 = false →
      should_skip_step step rd = (false, none)) ∧
    (step.name = "match_usuario_profissao" →
      (dget rd "position_id").truthy = true →
      should_skip_step step rd = (true, some "position_id provided")) ∧
    (step.name = "match_candidato" → (dget rd "vacancy_id").truthy = true →
      should_skip_step step rd = (true, some "vacancy_id provided")) ∧
    (step.name = "match_usuario_carreira" →
      (dget rd "position_id").truthy = true →
      (dget rd "career_name").truthy = true →
      should_skip_step step rd =
        (true, some "both position_id and career_name provided")) ∧
    (∀ step2 : FlowStep, step2.name = step.name →
      should_skip_step step2 rd = should_skip_step step rd) := by
  refine ⟨?_, ?_, ?_, ?_, ?_, ?_⟩
  · unfold should_skip_step
    split_ifs with h1 h2 h3
    · simp only [Bool.and_eq_true, beq_iff_eq] at h1
      exact ⟨fun _ => Or.inl ⟨h1.1, h1.2⟩, fun _ => rfl⟩
    · simp only [Bool.and_eq_true, beq_iff_eq] at h2
      exact ⟨fun _ => Or.inr (Or.inl ⟨h2.1, h2.2⟩), fun _ => rfl⟩
    · simp only [Bool.and_eq_true, beq_iff_eq] at h3
      exact ⟨fun _ => Or.inr (Or.inr ⟨h3.1.1, h3.1.2, h3.2⟩), fun _ => rfl⟩
    · constructor
      · intro h
        exact absurd h (by simp)
      · rintro (⟨hn, hp⟩ | ⟨hn, hp⟩ | ⟨hn, hp1, hp2⟩)
        · exact absurd (by simp [hn, hp]) h1
        · exact absurd (by simp [hn, hp]) h2
        · exact absurd (by simp [hn, hp1, hp2]) h3
  · unfold should_skip_step
    split_ifs
    · intro h
      simp at h
    · intro h
      simp at h
    · intro h
      simp at h
    · intro _
      rfl
  · intro hn hp
    unfold should_skip_step
    rw [if_pos (by simp [hn, hp])]
  · intro hn hp
    have e1 : (step.name == "match_usuario_profissao") = false := by
      rw [hn]; decide
    unfold should_skip_step
    rw [if_neg (by simp [e1]), if_pos (by simp [hn, hp])]
  · intro hn hp1 hp2
    have e1 : (step.name == "match_usuario_profissao") = false := by
      rw [hn]; decide
    have e2 : (step.name == "match_candidato") = false := by
      rw [hn]; decide
    unfold should_skip_step
    rw [if_neg (by simp [e1]), if_neg (by simp [e2]),
      if_pos (by simp [hn, hp1, hp2])]
  · intro step2 hname
    unfold should_skip_step
    rw [hname]

/-- Witness for C10: the `match_candidato` rule fires when `vacancy_id` is a
truthy request parameter. -/
theorem should_skip_step_characterization_witness :
    (should_skip_step stepMC [("vacancy_id", Value.vstr "v1")]).1 = true :=
  ((should_skip_step_characterization stepMC
    [("vacancy_id", Value.vstr "v1")]).1).mpr
    (Or.inr (Or.inl ⟨rfl, by decide⟩))

end MLOrchestrator
